import Mathlib

/-!
Shallow embedding of `starknet_py/net/signer/ledger_signer.py`:
the derivation-path codec (`_parse_derivation_path_str`,
`_derivation_path_to_bytes`), the device operations
(`LedgerStarknetApp.get_public_key`, `LedgerStarknetApp.sign_hash`)
and the `LedgerSigner` constructor.  The device transport
(`LedgerClient.apdu_exchange`) is modelled as a function from a command
to the raw response bytes; the commands sent are returned alongside the
result so that the order and content of the exchanges is observable.
-/

namespace LedgerSignerModel

/-- Modelled from the spec: `EIP_2645_PATH_LENGTH` lives in
`starknet_py/constants.py`, which is not part of the sources; the spec
fixes the path length to exactly 6 elements. -/
def EIP_2645_PATH_LENGTH : Nat := 6

/-- Modelled from the spec: `EIP_2645_PURPOSE` lives in
`starknet_py/constants.py`, which is not part of the sources; the spec
fixes it to the hardened encoding of the purpose constant 2645
(hardening sets bit 31, per BIP32 convention). -/
def EIP_2645_PURPOSE : Nat := 2645 ||| 2 ^ 31

/-- Modelled from the spec: `PUBLIC_KEY_LENGTH` lives in
`starknet_py/constants.py`, which is not part of the sources; the spec
describes the get-public-key response as a fixed length with a 1-byte
tag followed by the 32-byte big-endian integer (the Starknet app
returns a tag byte plus two 32-byte coordinates, 65 bytes). -/
def PUBLIC_KEY_LENGTH : Nat := 65

/-- Modelled from the spec: `SIGNATURE_LENGTH` lives in
`starknet_py/constants.py`, which is not part of the sources; the spec
describes the sign-hash response as `SIGNATURE_LENGTH + 1` = 65 bytes
with tag byte 64, so `SIGNATURE_LENGTH = 64`. -/
def SIGNATURE_LENGTH : Nat := 64

/-- An APDU command as assembled by `LedgerClient.apdu_exchange` calls:
instruction byte, the two parameter bytes and the payload. -/
structure Apdu where
  ins : Nat
  p1 : Nat
  p2 : Nat
  data : List Nat
deriving DecidableEq

/-- A transport handle: one synchronous exchange, command in, raw
response bytes out (`LedgerClient.apdu_exchange`). -/
def Transport : Type := Apdu → List Nat

/-- Errors raised by `_parse_derivation_path_str` (all `ValueError` in
Python, except the key-index range error which `bip_utils` raises). -/
inductive PathError
  | emptyPath
  | invalidIntLiteral
  | keyIndexOutOfRange
  | wrongLength
  | wrongPurpose
deriving DecidableEq

/-- Errors raised by the device operations: `OverflowError` from
`int.to_bytes` and the `ValueError` for an unexpected response length. -/
inductive LedgerError
  | overflowError
  | unexpectedResponseLength
deriving DecidableEq

/-- Big-endian interpretation of a byte list, as `int.from_bytes(bs, "big")`. -/
def bytesToNatBE (bs : List Nat) : Nat :=
  bs.foldl (fun acc b => acc * 256 + b) 0

/-- Fixed-width big-endian byte encoding of a natural number,
as `n.to_bytes(len, "big")` once the range check has passed. -/
def natToBytesBE : Nat → Nat → List Nat
  | _, 0 => []
  | n, k + 1 => natToBytesBE (n / 256) k ++ [n % 256]

/-- Python `int.to_bytes(len, "big")` on a possibly negative int:
raises `OverflowError` when the value is negative or does not fit. -/
def intToBytesBE (n : Int) (len : Nat) : Except LedgerError (List Nat) :=
  if n < 0 then .error .overflowError
  else if (256 : Int) ^ len ≤ n then .error .overflowError
  else .ok (natToBytesBE n.toNat len)

/-- The apostrophe character, the hardening marker of a path element. -/
def hardenMarker : Char := Char.ofNat 39

/-- Digit run of Python `int`: a non-empty all-decimal-digit string.
Whitespace, underscore and non-ASCII digit forms that Python `int` also
accepts are not modelled; no path in the claims uses them. -/
def digitsToNat (cs : List Char) : Option Nat :=
  if cs = [] then none
  else if cs.all Char.isDigit then
    some (cs.foldl (fun acc c => acc * 10 + (c.toNat - 48)) 0)
  else none

/-- Python `int(part)` on a path element: optional sign, then digits. -/
def parseIntPy (cs : List Char) : Option Int :=
  match cs with
  | [] => none
  | c :: rest =>
    if c = '+' then (digitsToNat rest).map Int.ofNat
    else if c = '-' then (digitsToNat rest).map (fun n => -(n : Int))
    else (digitsToNat cs).map Int.ofNat

/-- `Bip32Utils.HardenIndex`: or the index with bit 31.  A negative
index stays negative under Python's two's-complement `|` and is then
rejected by `Bip32KeyIndex`, so it is kept as is. -/
def hardenIndex (i : Int) : Int :=
  if i < 0 then i else Int.ofNat (i.toNat ||| 2 ^ 31)

/-- One iteration of the element loop of `_parse_derivation_path_str`:
strip a trailing hardening marker, convert with `int`, harden when
marked, then construct `Bip32KeyIndex`, which requires
`0 <= index < 2^32`. -/
def parseKeyElement (cs : List Char) : Except PathError Nat :=
  let idx : Except PathError Int :=
    if cs.getLast? = some hardenMarker then
      match parseIntPy cs.dropLast with
      | none => .error .invalidIntLiteral
      | some i => .ok (hardenIndex i)
    else
      match parseIntPy cs with
      | none => .error .invalidIntLiteral
      | some i => .ok i
  match idx with
  | .error e => .error e
  | .ok i => if i < 0 ∨ (2 : Int) ^ 32 ≤ i then .error .keyIndexOutOfRange else .ok i.toNat

/-- Whether a path element parses successfully. -/
def elemOK (cs : List Char) : Bool :=
  match parseKeyElement cs with
  | .ok _ => true
  | .error _ => false

/-- The element loop of `_parse_derivation_path_str`: parse the parts
in order, stopping at the first failure. -/
def parseElements : List (List Char) → Except PathError (List Nat)
  | [] => .ok []
  | p :: ps =>
    match parseKeyElement p with
    | .error e => .error e
    | .ok n =>
      match parseElements ps with
      | .error e => .error e
      | .ok ns => .ok (n :: ns)

/-- Python `str.lstrip("m/")`: drop every leading character that is
`m` or `/`. -/
def lstripMSlash (cs : List Char) : List Char :=
  cs.dropWhile (fun c => c == 'm' || c == '/')

/-- Python `str.split("/")`: split on every slash, keeping empty parts
(`""` splits to `[""]`). -/
def splitOnSlash : List Char → List (List Char)
  | [] => [[]]
  | c :: rest =>
    if c = '/' then [] :: splitOnSlash rest
    else
      match splitOnSlash rest with
      | [] => [[c]]
      | p :: ps => (c :: p) :: ps

/-- `_parse_derivation_path_str`: empty check, strip the root marker
and split, parse each element, then the length check and the purpose
check, in that order. -/
def _parse_derivation_path_str (s : String) : Except PathError (List Nat) :=
  if s = "" then .error .emptyPath
  else
    let path_parts := splitOnSlash (lstripMSlash s.toList)
    match parseElements path_parts with
    | .error e => .error e
    | .ok path_elements =>
      if path_elements.length ≠ EIP_2645_PATH_LENGTH then .error .wrongLength
      else if path_elements.headD 0 ≠ EIP_2645_PURPOSE then .error .wrongPurpose
      else .ok path_elements

/-- `_derivation_path_to_bytes`: concatenate `Bip32KeyIndex.ToBytes()`
(4-byte big-endian) of each element, in path order. -/
def _derivation_path_to_bytes (derivation_path : List Nat) : List Nat :=
  (derivation_path.map (fun index => natToBytesBE index 4)).flatten

/-- The get-public-key command built by `LedgerStarknetApp.get_public_key`:
`ins=1, p1=0 if device_confirmation else 0, p2=0`, payload the encoded
path.  The flag expression is translated verbatim from the source. -/
def publicKeyCmd (derivation_path : List Nat) (device_confirmation : Bool) : Apdu :=
  ⟨1, if device_confirmation then 0 else 0, 0, _derivation_path_to_bytes derivation_path⟩

/-- `LedgerStarknetApp.get_public_key`: send the get-public-key command,
check the response length against `PUBLIC_KEY_LENGTH`, then read the
32-byte big-endian integer at offset 1.  Returns the command sent
alongside the result. -/
def get_public_key (transport : Transport) (derivation_path : List Nat)
    (device_confirmation : Bool) : Apdu × Except LedgerError Nat :=
  let cmd := publicKeyCmd derivation_path device_confirmation
  let response := transport cmd
  (cmd,
    if response.length ≠ PUBLIC_KEY_LENGTH then .error .unexpectedResponseLength
    else .ok (bytesToNatBE ((response.drop 1).take 32)))

/-- `LedgerStarknetApp.sign_hash`: phase 1 sends the encoded path
(response ignored); then the hash is shifted left by 4 bits
(`hash_val << 4`, i.e. multiplied by 16) and encoded as 32 bytes
big-endian (`OverflowError` when out of range); phase 2 sends the
shifted bytes; the response must be `SIGNATURE_LENGTH + 1` bytes with
byte 0 equal to `SIGNATURE_LENGTH`, and `r`, `s` are the big-endian
integers of bytes [1:33] and [33:65].  Returns the list of commands
sent, in order, alongside the result. -/
def sign_hash (transport : Transport) (derivation_path : List Nat)
    (hash_val : Int) : List Apdu × Except LedgerError (List Nat) :=
  let cmd1 : Apdu := ⟨0, 0, 0, _derivation_path_to_bytes derivation_path⟩
  let _resp1 := transport cmd1
  let shifted_int : Int := hash_val * 2 ^ 4
  match intToBytesBE shifted_int 32 with
  | .error e => ([cmd1], .error e)
  | .ok shifted_bytes =>
    let cmd2 : Apdu := ⟨2, 1, 0, shifted_bytes⟩
    let response := transport cmd2
    ([cmd1, cmd2],
      if response.length ≠ SIGNATURE_LENGTH + 1 ∨ response.headD 0 ≠ SIGNATURE_LENGTH then
        .error .unexpectedResponseLength
      else
        .ok [bytesToNatBE ((response.drop 1).take 32),
             bytesToNatBE ((response.drop 33).take 32)])

/-- A constructed `LedgerSigner`: the parsed derivation path and the
chain id (the app handle holds no data the claims observe). -/
structure LedgerSigner where
  derivation_path : List Nat
  chain_id : Nat
deriving DecidableEq

/-- `LedgerSigner.__init__`: parse the derivation path string; any
parse error propagates and no signer is produced. -/
def mkLedgerSigner (derivation_path_str : String) (chain_id : Nat) :
    Except PathError LedgerSigner :=
  match _parse_derivation_path_str derivation_path_str with
  | .error e => .error e
  | .ok derivation_path => .ok ⟨derivation_path, chain_id⟩

instance exceptDecEq {ε α : Type} [DecidableEq ε] [DecidableEq α] :
    DecidableEq (Except ε α) := fun x y =>
  match x, y with
  | .ok a, .ok b =>
    if h : a = b then isTrue (by rw [h]) else isFalse (fun hc => h (Except.ok.inj hc))
  | .ok _, .error _ => isFalse (fun hc => Except.noConfusion hc)
  | .error _, .ok _ => isFalse (fun hc => Except.noConfusion hc)
  | .error e, .error f =>
    if h : e = f then isTrue (by rw [h]) else isFalse (fun hc => h (Except.error.inj hc))

theorem natToBytesBE_length (n k : Nat) : (natToBytesBE n k).length = k := by
  induction k generalizing n with
  | zero => rfl
  | succ k ih => simp [natToBytesBE, ih]

theorem derivation_path_to_bytes_length (l : List Nat) :
    (_derivation_path_to_bytes l).length = 4 * l.length := by
  induction l with
  | nil => rfl
  | cons a t ih =>
    simp only [_derivation_path_to_bytes, List.map_cons, List.flatten_cons,
      List.length_append, natToBytesBE_length, List.length_cons] at *
    omega

theorem parseElements_length {ps : List (List Char)} {ns : List Nat}
    (h : parseElements ps = .ok ns) : ns.length = ps.length := by
  induction ps generalizing ns with
  | nil => simp [parseElements] at h; simp [← h]
  | cons p rest ih =>
    unfold parseElements at h
    cases hp : parseKeyElement p with
    | error e => rw [hp] at h; exact absurd h (by simp)
    | ok n =>
      rw [hp] at h
      cases hr : parseElements rest with
      | error e => rw [hr] at h; exact absurd h (by simp)
      | ok ms =>
        rw [hr] at h
        cases h
        simp [ih hr]

theorem parseElements_ok_of_all {ps : List (List Char)}
    (h : ps.all elemOK = true) : ∃ ns, parseElements ps = .ok ns := by
  induction ps with
  | nil => exact ⟨[], rfl⟩
  | cons p rest ih =>
    simp only [List.all_cons, Bool.and_eq_true] at h
    obtain ⟨hns, hpe⟩ : (∃ ns, parseElements rest = .ok ns) ∧ elemOK p = true :=
      ⟨ih h.2, h.1⟩
    obtain ⟨ns, hns⟩ := hns
    unfold elemOK at hpe
    cases hp : parseKeyElement p with
    | error e => rw [hp] at hpe; exact absurd hpe (by simp)
    | ok n => exact ⟨n :: ns, by unfold parseElements; rw [hp, hns]⟩

theorem parseElements_cons_ok {p : List Char} {ps : List (List Char)} {ns : List Nat}
    (h : parseElements (p :: ps) = .ok ns) :
    ∃ n ms, parseKeyElement p = .ok n ∧ parseElements ps = .ok ms ∧ ns = n :: ms := by
  unfold parseElements at h
  cases hp : parseKeyElement p with
  | error e => rw [hp] at h; exact absurd h (by simp)
  | ok n =>
    rw [hp] at h
    cases hr : parseElements ps with
    | error e => rw [hr] at h; exact absurd h (by simp)
    | ok ms => rw [hr] at h; cases h; exact ⟨n, ms, rfl, rfl, rfl⟩

theorem parse_eq_of_elements {s : String} (hs : s ≠ "") {ns : List Nat}
    (hpe : parseElements (splitOnSlash (lstripMSlash s.toList)) = .ok ns) :
    _parse_derivation_path_str s
      = if ns.length ≠ EIP_2645_PATH_LENGTH then .error .wrongLength
        else if ns.headD 0 ≠ EIP_2645_PURPOSE then .error .wrongPurpose
        else .ok ns := by
  unfold _parse_derivation_path_str
  rw [if_neg hs]
  simp only [hpe]

theorem parse_eq_of_elements_err {s : String} (hs : s ≠ "") {e : PathError}
    (hpe : parseElements (splitOnSlash (lstripMSlash s.toList)) = .error e) :
    _parse_derivation_path_str s = .error e := by
  unfold _parse_derivation_path_str
  rw [if_neg hs]
  simp only [hpe]

theorem parse_ok_shape {s : String} {l : List Nat}
    (h : _parse_derivation_path_str s = .ok l) :
    l.length = EIP_2645_PATH_LENGTH ∧ l.headD 0 = EIP_2645_PURPOSE := by
  by_cases hs : s = ""
  · subst hs
    exact absurd h (by simp [_parse_derivation_path_str])
  · cases hpe : parseElements (splitOnSlash (lstripMSlash s.toList)) with
    | error e =>
      rw [parse_eq_of_elements_err hs hpe] at h
      exact absurd h (by simp)
    | ok ns =>
      rw [parse_eq_of_elements hs hpe] at h
      split at h
      · exact absurd h (by simp)
      · split at h
        · exact absurd h (by simp)
        · cases h
          rename_i h1 h2
          exact ⟨not_ne_iff.mp h1, not_ne_iff.mp h2⟩

theorem intToBytesBE_shift_ok {hash_val : Int}
    (h0 : 0 ≤ hash_val) (h1 : hash_val < 2 ^ 252) :
    intToBytesBE (hash_val * 2 ^ 4) 32
      = .ok (natToBytesBE (hash_val * 2 ^ 4).toNat 32) := by
  unfold intToBytesBE
  have hA : ¬ (hash_val * 2 ^ 4 < 0) :=
    not_lt.mpr (mul_nonneg h0 (by norm_num))
  have hB : hash_val * 2 ^ 4 < 256 ^ 32 := by
    calc hash_val * 2 ^ 4 < 2 ^ 252 * 2 ^ 4 :=
          mul_lt_mul_of_pos_right h1 (by norm_num)
      _ = 256 ^ 32 := by norm_num
  rw [if_neg hA, if_neg (not_le.mpr hB)]

theorem intToBytesBE_shift_overflow {hash_val : Int}
    (h : hash_val < 0 ∨ 2 ^ 252 ≤ hash_val) :
    intToBytesBE (hash_val * 2 ^ 4) 32 = .error .overflowError := by
  unfold intToBytesBE
  rcases h with h | h
  · rw [if_pos (mul_neg_of_neg_of_pos h (by norm_num))]
  · have h0 : (0 : Int) ≤ hash_val := le_trans (by norm_num) h
    rw [if_neg (not_lt.mpr (mul_nonneg h0 (by norm_num))), if_pos]
    calc (256 : Int) ^ 32 = 2 ^ 252 * 2 ^ 4 := by norm_num
      _ ≤ hash_val * 2 ^ 4 := mul_le_mul_of_nonneg_right h (by norm_num)

/-- C1: for every phase-2 response returned by the transport during
`sign_hash`, if the response length is not `SIGNATURE_LENGTH + 1` bytes
or byte 0 does not equal `SIGNATURE_LENGTH`, then `sign_hash` raises the
unexpected-response-length error without extracting `r` or `s`;
otherwise it returns exactly the pair `(r, s)` where `r` is the
big-endian integer of bytes [1:33] and `s` of bytes [33:65], so no
partial signature is ever returned. -/
theorem sign_hash_validates_phase2_response
    (transport : Transport) (derivation_path : List Nat) (hash_val : Int)
    (response : List Nat)
    (h0 : 0 ≤ hash_val) (h1 : hash_val < 2 ^ 252)
    (hresp : transport ⟨2, 1, 0, natToBytesBE (hash_val * 2 ^ 4).toNat 32⟩ = response) :
    (response.length ≠ SIGNATURE_LENGTH + 1 ∨ response.headD 0 ≠ SIGNATURE_LENGTH →
       (sign_hash transport derivation_path hash_val).2 = .error .unexpectedResponseLength)
    ∧ (response.length = SIGNATURE_LENGTH + 1 ∧ response.headD 0 = SIGNATURE_LENGTH →
       (sign_hash transport derivation_path hash_val).2
         = .ok [bytesToNatBE ((response.drop 1).take 32),
                bytesToNatBE ((response.drop 33).take 32)]) := by
  unfold sign_hash
  simp only [intToBytesBE_shift_ok h0 h1]
  rw [hresp]
  constructor
  · intro h
    rw [if_pos h]
  · rintro ⟨hl, hh⟩
    rw [if_neg]
    push_neg
    exact ⟨hl, hh⟩

theorem sign_hash_validates_phase2_response_witness :
    (sign_hash (fun _ => 64 :: List.replicate 64 7) [0] 5).2
      = .ok [bytesToNatBE (List.replicate 32 7), bytesToNatBE (List.replicate 32 7)] := by
  have h := sign_hash_validates_phase2_response (fun _ => 64 :: List.replicate 64 7)
    [0] 5 (64 :: List.replicate 64 7) (by norm_num) (by norm_num) rfl
  exact h.2 ⟨by decide, by decide⟩

/-- C2: for every hash integer accepted by `sign_hash`, the payload of
the phase-2 device command equals the 32-byte big-endian encoding of
`hash_val << 4`, and this payload is a deterministic function of the
hash alone (the trace below does not depend on the transport or on the
derivation path beyond the phase-1 payload). -/
theorem sign_hash_phase2_payload
    (transport : Transport) (derivation_path : List Nat) (hash_val : Int)
    (h0 : 0 ≤ hash_val) (h1 : hash_val < 2 ^ 252) :
    (sign_hash transport derivation_path hash_val).1
      = [⟨0, 0, 0, _derivation_path_to_bytes derivation_path⟩,
         ⟨2, 1, 0, natToBytesBE (hash_val * 2 ^ 4).toNat 32⟩] := by
  unfold sign_hash
  simp only [intToBytesBE_shift_ok h0 h1]

theorem sign_hash_phase2_payload_witness :
    (sign_hash (fun _ => []) [0] 5).1
      = [⟨0, 0, 0, [0, 0, 0, 0]⟩, ⟨2, 1, 0, natToBytesBE 80 32⟩] := by
  have h := sign_hash_phase2_payload (fun _ => []) [0] 5 (by norm_num) (by norm_num)
  exact h

/-- C10: for every `hash_val` with `0 ≤ hash_val < 2^252` the 32-byte
big-endian encoding of `hash_val << 4` succeeds and both commands are
sent; for `hash_val` negative or `≥ 2^252`, the encoding raises the
overflow error, and since it happens after the phase-1 exchange, the
phase-1 (register path) command has already been sent: the trace is
exactly the one phase-1 command. -/
theorem sign_hash_overflow_after_phase1
    (transport : Transport) (derivation_path : List Nat) (hash_val : Int) :
    (hash_val < 0 ∨ 2 ^ 252 ≤ hash_val →
       sign_hash transport derivation_path hash_val
         = ([⟨0, 0, 0, _derivation_path_to_bytes derivation_path⟩],
            .error .overflowError))
    ∧ (0 ≤ hash_val → hash_val < 2 ^ 252 →
       (sign_hash transport derivation_path hash_val).1
         = [⟨0, 0, 0, _derivation_path_to_bytes derivation_path⟩,
            ⟨2, 1, 0, natToBytesBE (hash_val * 2 ^ 4).toNat 32⟩]
       ∧ (sign_hash transport derivation_path hash_val).2 ≠ .error .overflowError) := by
  constructor
  · intro h
    unfold sign_hash
    simp only [intToBytesBE_shift_overflow h]
  · intro h0 h1
    unfold sign_hash
    simp only [intToBytesBE_shift_ok h0 h1]
    constructor
    · trivial
    · split <;> simp

theorem sign_hash_overflow_after_phase1_witness :
    sign_hash (fun _ => []) [0] (2 ^ 252)
      = ([⟨0, 0, 0, [0, 0, 0, 0]⟩], .error .overflowError) :=
  (sign_hash_overflow_after_phase1 (fun _ => []) [0] (2 ^ 252)).1 (Or.inr (le_refl _))

/-- C4 (code bug): the claim says the flag parameter byte of the
get-public-key command is determined by the confirmation argument and
forwarded to the device; the source computes it as
`0 if device_confirmation else 0`, so the command sent is identical for
both flag values and its `p1` byte is always 0 — the flag is never
forwarded. -/
theorem get_public_key_flag_not_forwarded
    (transport : Transport) (derivation_path : List Nat) :
    (get_public_key transport derivation_path true).1
      = (get_public_key transport derivation_path false).1
    ∧ (get_public_key transport derivation_path true).1.p1 = 0 := by
  constructor <;> rfl

/-- C5: for every get-public-key response whose byte length differs
from `PUBLIC_KEY_LENGTH`, `get_public_key` raises the
unexpected-response-length error without extracting anything; for every
response of length exactly `PUBLIC_KEY_LENGTH`, it returns the
big-endian integer of the 32 bytes starting at offset 1. -/
theorem get_public_key_validates_response
    (transport : Transport) (derivation_path : List Nat) (device_confirmation : Bool)
    (response : List Nat)
    (hresp : transport (publicKeyCmd derivation_path device_confirmation) = response) :
    (response.length ≠ PUBLIC_KEY_LENGTH →
       (get_public_key transport derivation_path device_confirmation).2
         = .error .unexpectedResponseLength)
    ∧ (response.length = PUBLIC_KEY_LENGTH →
       (get_public_key transport derivation_path device_confirmation).2
         = .ok (bytesToNatBE ((response.drop 1).take 32))) := by
  unfold get_public_key
  dsimp only
  rw [hresp]
  constructor
  · intro h
    rw [if_pos h]
  · intro h
    rw [if_neg (not_ne_iff.mpr h)]

theorem get_public_key_validates_response_witness :
    (get_public_key (fun _ => List.replicate 65 9) [0] false).2
      = .ok (bytesToNatBE (List.replicate 32 9)) := by
  have h := get_public_key_validates_response (fun _ => List.replicate 65 9)
    [0] false (List.replicate 65 9) rfl
  exact h.2 (by decide)

/-- C7: parse of the empty string fails with the empty-path error; the
emptiness check comes before any other validation — had the element
loop run, it would have failed differently, with the int-literal error
on the single empty part produced by splitting. -/
theorem parse_empty_string_fails_first :
    _parse_derivation_path_str "" = .error .emptyPath
    ∧ parseElements (splitOnSlash (lstripMSlash "".toList))
        = .error .invalidIntLiteral :=
  ⟨rfl, rfl⟩

/-- C3 counterexample: a 6-element path string whose first element
parses to the hardened purpose constant, on which parse does not
succeed — it fails with the int-literal error raised by the element
loop on the non-numeric second element, so the claim as stated is
false. -/
theorem parse_purpose_claim_counterexample :
    (splitOnSlash (lstripMSlash ("m/2147486293/x/0/0/0/0").toList)).length
        = EIP_2645_PATH_LENGTH
    ∧ parseKeyElement
        ((splitOnSlash (lstripMSlash ("m/2147486293/x/0/0/0/0").toList)).headD [])
        = .ok EIP_2645_PURPOSE
    ∧ _parse_derivation_path_str "m/2147486293/x/0/0/0/0"
        = .error .invalidIntLiteral := by
  refine ⟨rfl, rfl, rfl⟩

/-- C3 (amended): for every path string splitting into 6 elements that
are all well-formed indices, if the first element parses to the
hardened purpose constant then parse succeeds, and if it parses to any
other value then parse fails with the purpose-prefix error (the
purpose check runs after the length check). -/
theorem parse_purpose_check (s : String)
    (hw : (splitOnSlash (lstripMSlash s.toList)).all elemOK = true)
    (hlen : (splitOnSlash (lstripMSlash s.toList)).length = EIP_2645_PATH_LENGTH) :
    (parseKeyElement ((splitOnSlash (lstripMSlash s.toList)).headD [])
        = .ok EIP_2645_PURPOSE →
       ∃ l, _parse_derivation_path_str s = .ok l)
    ∧ (∀ n, parseKeyElement ((splitOnSlash (lstripMSlash s.toList)).headD [])
        = .ok n → n ≠ EIP_2645_PURPOSE →
       _parse_derivation_path_str s = .error .wrongPurpose) := by
  have hs : s ≠ "" := by
    intro hc
    subst hc
    exact absurd hlen (by decide)
  obtain ⟨ns, hns⟩ := parseElements_ok_of_all hw
  have hred := parse_eq_of_elements hs hns
  have hlens : ns.length = EIP_2645_PATH_LENGTH :=
    (parseElements_length hns).trans hlen
  rw [if_neg (not_ne_iff.mpr hlens)] at hred
  cases hparts : splitOnSlash (lstripMSlash s.toList) with
  | nil => rw [hparts] at hlen; exact absurd hlen (by decide)
  | cons p rest =>
    have hns2 : parseElements (p :: rest) = .ok ns := hparts ▸ hns
    obtain ⟨n, ms, hn, hms, hcons⟩ := parseElements_cons_ok hns2
    subst hcons
    constructor
    · intro hfirst
      rw [List.headD_cons, hn] at hfirst
      have hnp : n = EIP_2645_PURPOSE := Except.ok.inj hfirst
      have hhead : ¬((n :: ms).headD 0 ≠ EIP_2645_PURPOSE) := by
        rw [List.headD_cons]
        exact not_ne_iff.mpr hnp
      rw [if_neg hhead] at hred
      exact ⟨n :: ms, hred⟩
    · intro m hm hne
      rw [List.headD_cons, hn] at hm
      cases Except.ok.inj hm
      have hhead : (n :: ms).headD 0 ≠ EIP_2645_PURPOSE := by
        rw [List.headD_cons]
        exact hne
      rw [if_pos hhead] at hred
      exact hred

theorem parse_purpose_check_witness :
    (∃ l, _parse_derivation_path_str "m/2147486293/0/0/0/0/0" = .ok l)
    ∧ _parse_derivation_path_str "m/1234/0/0/0/0/0" = .error .wrongPurpose := by
  constructor
  · exact (parse_purpose_check "m/2147486293/0/0/0/0/0" rfl rfl).1 rfl
  · exact (parse_purpose_check "m/1234/0/0/0/0/0" rfl rfl).2 1234 rfl (by decide)

/-- C6 counterexample: a path string splitting into 2 elements whose
first parses to the hardened purpose constant; as the element count is
not 6 the claim requires the length error, but parse fails earlier in
the element loop with the int-literal error on the non-numeric second
element, so the claim as stated is false. -/
theorem parse_length_claim_counterexample :
    (splitOnSlash (lstripMSlash ("m/2147486293/x").toList)).length
        ≠ EIP_2645_PATH_LENGTH
    ∧ parseKeyElement
        ((splitOnSlash (lstripMSlash ("m/2147486293/x").toList)).headD [])
        = .ok EIP_2645_PURPOSE
    ∧ _parse_derivation_path_str "m/2147486293/x" = .error .invalidIntLiteral
    ∧ _parse_derivation_path_str "m/2147486293/x" ≠ .error .wrongLength := by
  refine ⟨by decide, rfl, rfl, by decide⟩

/-- C6 (amended): for every path string all of whose split elements are
well-formed indices, if the element count differs from 6 then parse
fails with the length error, even when the purpose prefix is correct;
the length check runs before the purpose check. -/
theorem parse_length_check (s : String)
    (hw : (splitOnSlash (lstripMSlash s.toList)).all elemOK = true)
    (hlen : (splitOnSlash (lstripMSlash s.toList)).length ≠ EIP_2645_PATH_LENGTH) :
    _parse_derivation_path_str s = .error .wrongLength := by
  have hs : s ≠ "" := by
    intro hc
    subst hc
    exact absurd hw (by decide)
  obtain ⟨ns, hns⟩ := parseElements_ok_of_all hw
  have hlens : ns.length ≠ EIP_2645_PATH_LENGTH :=
    fun hc => hlen ((parseElements_length hns) ▸ hc)
  rw [parse_eq_of_elements hs hns, if_pos hlens]

theorem parse_length_check_witness :
    _parse_derivation_path_str "m/2147486293/0" = .error .wrongLength :=
  parse_length_check "m/2147486293/0" rfl (by decide)

/-- C8: for every path string splitting into 6 well-formed elements
whose first parses to the hardened purpose constant, parse succeeds and
encoding the parsed path yields exactly 24 bytes (six elements, 4 bytes
big-endian each, in path order). -/
theorem parse_encode_roundtrip_length (s : String)
    (hw : (splitOnSlash (lstripMSlash s.toList)).all elemOK = true)
    (hlen : (splitOnSlash (lstripMSlash s.toList)).length = EIP_2645_PATH_LENGTH)
    (hfirst : parseKeyElement ((splitOnSlash (lstripMSlash s.toList)).headD [])
        = .ok EIP_2645_PURPOSE) :
    ∃ l, _parse_derivation_path_str s = .ok l
      ∧ (_derivation_path_to_bytes l).length = 24 := by
  obtain ⟨l, hl⟩ := (parse_purpose_check s hw hlen).1 hfirst
  refine ⟨l, hl, ?_⟩
  rw [derivation_path_to_bytes_length, (parse_ok_shape hl).1]
  rfl

theorem parse_encode_roundtrip_length_witness :
    ∃ l, _parse_derivation_path_str "m/2147486293/1195502025/1470455285/0/0/0" = .ok l
      ∧ (_derivation_path_to_bytes l).length = 24 :=
  parse_encode_roundtrip_length "m/2147486293/1195502025/1470455285/0/0/0" rfl rfl rfl

/-- C9: for every derivation path string on which parsing fails (empty,
wrong element count, wrong purpose prefix, or any element error), the
`LedgerSigner` constructor fails with that same path error; and every
signer the constructor does return carries a parsed path satisfying the
structural invariants (6 elements, hardened-purpose first element), so
no partially built signer with an invalid path escapes construction. -/
theorem ledger_signer_fail_fast (s : String) (c : Nat) :
    (∀ e, _parse_derivation_path_str s = .error e → mkLedgerSigner s c = .error e)
    ∧ (∀ sg, mkLedgerSigner s c = .ok sg →
        _parse_derivation_path_str s = .ok sg.derivation_path
        ∧ sg.derivation_path.length = EIP_2645_PATH_LENGTH
        ∧ sg.derivation_path.headD 0 = EIP_2645_PURPOSE) := by
  constructor
  · intro e he
    unfold mkLedgerSigner
    rw [he]
  · intro sg hsg
    unfold mkLedgerSigner at hsg
    cases hp : _parse_derivation_path_str s with
    | error e => rw [hp] at hsg; exact absurd hsg (by simp)
    | ok l =>
      rw [hp] at hsg
      cases hsg
      exact ⟨rfl, (parse_ok_shape hp).1, (parse_ok_shape hp).2⟩

theorem ledger_signer_fail_fast_witness :
    mkLedgerSigner "" 0 = .error .emptyPath :=
  (ledger_signer_fail_fast "" 0).1 .emptyPath rfl

end LedgerSignerModel
